import Mathlib

/-!
# go-libp2p-broadcast: a shallow embedding of `broadcast.go`

The program keeps a registry `rws` of buffered read/writers, one per open
stream.  `handleStream` and `main` register streams, `readData` renders the
lines received on one stream, `writeData` sends every operator line to every
registered stream, and `addAddrToPeerstore` resolves a peer locator.

Texts are lists of characters, one element per byte on the wire.  The Go
standard library (`bufio`) and the libp2p libraries are the environment of
the program: `bufio` is modelled after its documented behaviour, the address
library is a parameter of the functions that call it.
-/

namespace Broadcast

/-- A Go string, one element per byte. -/
abbrev Text := List Char

/-- A peer identity (`peer.ID`): the bytes of the identity. -/
structure PeerID where
  bytes : List Nat
  deriving DecidableEq, Repr

/-! ## Environment: `net.Stream` and `bufio` -/

/-- The result of one `ReadString('\n')` call: the data returned and whether
the returned error is non-nil. -/
structure ReadResult where
  str : Text
  err : Bool
  deriving DecidableEq, Repr

/-- A `net.Stream` to one remote peer.  `incoming` lists what the successive
`ReadString('\n')` calls of a `bufio.Reader` on the stream return (once it is
exhausted the next read blocks for ever); `delivered` is what the stream has
accepted for the peer so far; `credit` tells how the stream answers writes:
`none` accepts every write, `some k` accepts `k` more bytes and then fails. -/
structure NetStream where
  peer : PeerID
  incoming : List ReadResult
  delivered : Text
  credit : Option Nat
  deriving DecidableEq, Repr

/-- The call `s.Write(p)`: the stream afterwards, the number of bytes written,
and whether an error is returned. -/
def NetStream.Write (s : NetStream) (p : Text) : NetStream × Nat × Bool :=
  match s.credit with
  | none => ({ s with delivered := s.delivered ++ p }, p.length, false)
  | some k =>
    if p.length ≤ k then
      ({ s with delivered := s.delivered ++ p, credit := some (k - p.length) }, p.length, false)
    else
      ({ s with delivered := s.delivered ++ p.take k, credit := some 0 }, k, true)

/-- The value of `defaultBufSize` in `bufio`, the size `bufio.NewWriter` uses. -/
def bufSize : Nat := 4096

/-- A `bufio.Writer`: the underlying stream `wr`, the buffered bytes
`buf[0:n]`, and whether the sticky error `err` is set. -/
structure Writer where
  wr : NetStream
  buf : Text
  err : Bool
  deriving DecidableEq, Repr

/-- The call `bufio.NewWriter(s)`. -/
def NewWriter (s : NetStream) : Writer := { wr := s, buf := [], err := false }

/-- The method `Available`: the unused bytes of the buffer. -/
def Writer.Available (b : Writer) : Nat := bufSize - b.buf.length

/-- The method `Flush`: with a sticky error or an empty buffer nothing is
done; otherwise the buffer is handed to the stream, a short write counts as
an error, and on an error the unwritten bytes stay buffered. -/
def Writer.Flush (b : Writer) : Writer :=
  if b.err then b
  else if b.buf.length = 0 then b
  else
    let r := b.wr.Write b.buf
    if r.2.2 || decide (r.2.1 < b.buf.length) then
      { wr := r.1, buf := b.buf.drop r.2.1, err := true }
    else
      { wr := r.1, buf := [], err := false }

/-- The loop of `WriteString`: while the text does not fit and no error is
set, fill the buffer and flush.  Returns the writer and the text left. -/
def Writer.writeStringLoop : Nat → Writer → Text → Writer × Text
  | 0, b, s => (b, s)
  | fuel + 1, b, s =>
    if b.Available < s.length ∧ b.err = false then
      let n := min s.length b.Available
      Writer.writeStringLoop fuel ({ b with buf := b.buf ++ s.take n }).Flush (s.drop n)
    else (b, s)

/-- The method `WriteString`: the loop, then the rest is copied into the buffer
unless an error is set. -/
def Writer.WriteString (b : Writer) (s : Text) : Writer :=
  let r := Writer.writeStringLoop (s.length + 1) b s
  if r.1.err then r.1
  else { r.1 with buf := r.1.buf ++ r.2.take (min r.2.length r.1.Available) }

/-- A `bufio.ReadWriter`: the results its reader half will return and its
writer half. -/
structure ReadWriter where
  rd : List ReadResult
  w : Writer
  deriving DecidableEq, Repr

/-- The call `bufio.NewReadWriter(bufio.NewReader(s), bufio.NewWriter(s))`. -/
def NewReadWriter (s : NetStream) : ReadWriter := { rd := s.incoming, w := NewWriter s }

/-- Splits a byte sequence at its newlines: the complete lines, each with its
newline, and the unterminated rest.  `cur` is the line being collected. -/
def linesFrom : Text → Text → List Text × Text
  | cur, [] => ([], cur)
  | cur, c :: cs =>
    if c = '\n' then (((cur ++ [c]) :: (linesFrom [] cs).1), (linesFrom [] cs).2)
    else linesFrom (cur ++ [c]) cs

/-- What successive `ReadString('\n')` calls return on a source that carries
`data`: every complete line without an error; then, if the source is closed
after `data`, the unterminated rest (when there is one) with the error and an
empty string with the error.  On a source that stays open the read after the
last complete line blocks. -/
def ReadStringAll (data : Text) (closed : Bool) : List ReadResult :=
  (linesFrom [] data).1.map (fun l => { str := l, err := false }) ++
    (if closed then
      (if (linesFrom [] data).2 = [] then [] else [{ str := (linesFrom [] data).2, err := true }]) ++
        [{ str := [], err := true }]
     else [])

/-! ## Program state -/

/-- A goroutine started with `go`. -/
inductive Task where
  | readData (rw : Nat)
  | writeData
  deriving DecidableEq, Repr

/-- The globals of the program and what it has printed.  `heap` holds the
`bufio.ReadWriter` objects, the address of an object being its index; `rws`
is the global slice of pointers into it. -/
structure World where
  heap : List ReadWriter
  rws : List Nat
  dests : List Text
  stdout : Text
  log : List Text
  tasks : List Task
  deriving DecidableEq, Repr

/-- The state at program start. -/
def World.init : World :=
  { heap := [], rws := [], dests := [], stdout := [], log := [], tasks := [] }

/-- Applies `f` to the object at address `p`. -/
def updateAt {α : Type} (f : α → α) : Nat → List α → List α
  | _, [] => []
  | 0, x :: xs => f x :: xs
  | p + 1, x :: xs => x :: updateAt f p xs

/-- The prompt `"> "`. -/
def prompt : Text := ['>', ' ']

/-- The green console colour `\x1b[32m`. -/
def green : Text := ['\x1b', '[', '3', '2', 'm']

/-- The reset console colour `\x1b[0m`. -/
def reset : Text := ['\x1b', '[', '0', 'm']

/-! ## `handleStream` -/

/-- The function `handleStream(s)`: logs, prints the prompt, wraps the stream,
appends the new read/writer to `rws` and starts its `readData`. -/
def handleStream (w : World) (s : NetStream) : World :=
  { w with
    log := w.log ++ ["Got a new stream!\n".toList]
    stdout := w.stdout ++ prompt
    heap := w.heap ++ [NewReadWriter s]
    rws := w.rws ++ [w.heap.length]
    tasks := w.tasks ++ [Task.readData w.heap.length] }

/-! ## `readData` -/

/-- How a loop that never exits normally ends in the model. -/
inductive Status where
  | returned
  | blocked
  deriving DecidableEq, Repr

/-- A run of the loop of `readData`: what is on the display, the results the
reader has not been asked for, and how the loop ended. -/
structure ReadRun where
  stdout : Text
  rest : List ReadResult
  status : Status
  deriving DecidableEq, Repr

/-- The loop of `readData` over the results of `rw.ReadString('\n')`.  The
error of a read is discarded; an empty string returns; a string other than a
single newline is printed in green followed by the prompt. -/
def readDataLoop : List ReadResult → Text → ReadRun
  | [], out => { stdout := out, rest := [], status := Status.blocked }
  | r :: rs, out =>
    if r.str = [] then { stdout := out, rest := rs, status := Status.returned }
    else if r.str ≠ ['\n'] then readDataLoop rs (out ++ green ++ r.str ++ reset ++ prompt)
    else readDataLoop rs out

/-- The function `readData(rw)` for the read/writer at address `p`. -/
def readData (w : World) (p : Nat) : World × Status :=
  match w.heap[p]? with
  | none => (w, Status.returned)
  | some rw =>
    let run := readDataLoop rw.rd w.stdout
    ({ w with
       heap := updateAt (fun x => { x with rd := run.rest }) p w.heap
       stdout := run.stdout }, run.status)

/-! ## `writeData` -/

/-- The body of the inner loop of `writeData` for one read/writer:
`rw.WriteString(fmt.Sprintf("%s\n", sendData))` and `rw.Flush()`, both results
discarded. -/
def send (sendData : Text) (rw : ReadWriter) : ReadWriter :=
  { rw with w := (rw.w.WriteString (sendData ++ ['\n'])).Flush }

/-- The inner loop `for _, rw := range rws`. -/
def broadcast (w : World) (sendData : Text) : World :=
  { w with heap := w.rws.foldl (fun h p => updateAt (send sendData) p h) w.heap }

/-- How `writeData` ends: by `panic(err)`, or waiting for input for ever. -/
inductive WriteEnd where
  | panicked
  | blocked
  deriving DecidableEq, Repr

/-- The function `writeData` over the results of `stdReader.ReadString('\n')`:
print the prompt, read, panic on an error, otherwise broadcast and loop. -/
def writeData : List ReadResult → World → World × WriteEnd
  | [], w => ({ w with stdout := w.stdout ++ prompt }, WriteEnd.blocked)
  | r :: rest, w =>
    if r.err then ({ w with stdout := w.stdout ++ prompt }, WriteEnd.panicked)
    else writeData rest (broadcast { w with stdout := w.stdout ++ prompt } r.str)

/-! ## Environment: the address and host libraries -/

/-- A parsed multiaddress: its components, each a protocol code and a value. -/
abbrev Multiaddr := List (Nat × Text)

/-- The protocol code `multiaddr.P_IPFS`. -/
def P_IPFS : Nat := 421

/-- The functions of `go-multiaddr` and `go-libp2p-peer` that the program
calls.  A result `none` stands for a returned error. -/
structure AddrLib where
  NewMultiaddr : Text → Option Multiaddr
  ValueForProtocol : Multiaddr → Nat → Option Text
  IDB58Decode : Text → Option PeerID
  IDB58Encode : PeerID → Text
  Decapsulate : Multiaddr → Multiaddr → Multiaddr

/-- Retention of an address in the peerstore; `permanent` is
`peerstore.PermanentAddrTTL`. -/
inductive TTL where
  | permanent
  | temporary (d : Nat)
  deriving DecidableEq, Repr

/-- One address of the peerstore. -/
structure AddrEntry where
  id : PeerID
  addr : Multiaddr
  ttl : TTL
  deriving DecidableEq, Repr

/-- A libp2p host: its identity, the addresses it listens on, the addresses
added to its peerstore, the protocols with a stream handler, and the peers a
stream was opened to. -/
structure Host where
  id : PeerID
  listen : List Multiaddr
  peerstore : List AddrEntry
  handlers : List Text
  opened : List PeerID
  deriving DecidableEq, Repr

/-- The call `libp2p.New(ctx, libp2p.ListenAddrs(a), libp2p.Identity(key))`
when it succeeds: a host listening on `a`. -/
def libp2pNew (id : PeerID) (a : Option Multiaddr) : Host :=
  { id := id, listen := a.toList, peerstore := [], handlers := [], opened := [] }

/-- The call `h.Peerstore().AddAddr(p, a, ttl)`. -/
def Host.AddAddr (h : Host) (p : PeerID) (a : Multiaddr) (ttl : TTL) : Host :=
  { h with peerstore := h.peerstore ++ [{ id := p, addr := a, ttl := ttl }] }

/-- The call `h.SetStreamHandler(pid, handleStream)`. -/
def Host.SetStreamHandler (h : Host) (pid : Text) : Host :=
  { h with handlers := h.handlers ++ [pid] }

/-- The protocol identifier `"/broadcast/1.0.0"`. -/
def protocolID : Text := "/broadcast/1.0.0".toList

/-! ## `addAddrToPeerstore` -/

/-- How `addAddrToPeerstore` ends: it returns the peer identity (and has
changed the host), or `log.Fatalln` ends the process, or it panics. -/
inductive Resolved where
  | ok (h : Host) (id : PeerID)
  | fatal
  | panicked
  deriving DecidableEq, Repr

/-- The function `addAddrToPeerstore(h, addr)`. -/
def addAddrToPeerstore (L : AddrLib) (h : Host) (addr : Text) : Resolved :=
  match L.NewMultiaddr addr with
  | none => Resolved.fatal
  | some ipfsaddr =>
    match L.ValueForProtocol ipfsaddr P_IPFS with
    | none => Resolved.fatal
    | some pid =>
      match L.IDB58Decode pid with
      | none => Resolved.fatal
      | some peerid =>
        match L.NewMultiaddr ("/ipfs/".toList ++ L.IDB58Encode peerid) with
        | none => Resolved.panicked
        | some targetPeerAddr =>
          Resolved.ok (h.AddAddr peerid (L.Decapsulate ipfsaddr targetPeerAddr) TTL.permanent)
            peerid

/-! ## `main` -/

/-- The command-line flags `-sp`, `-d`, `-help` and `-debug`. -/
structure Flags where
  sp : Int
  d : Text
  help : Bool
  debug : Bool
  deriving DecidableEq, Repr

/-- What the calls of `main` into the outside world answer: whether key
generation fails, whether `libp2p.New` fails, the identity of the new host,
and the stream `host.NewStream` returns for a peer (`none`: an error). -/
structure Env where
  keyErr : Bool
  hostErr : Bool
  hostID : PeerID
  dial : Host → PeerID → Option NetStream

/-- How `main` ends: `os.Exit(0)`, a panic, `log.Fatalln`, or hanging for ever
with the goroutines running. -/
inductive Exit where
  | exit0
  | panicked
  | fatal
  | hang
  deriving DecidableEq, Repr

/-- The globals and the host at the point where `main` ends. -/
structure MainState where
  world : World
  host : Option Host
  deriving DecidableEq, Repr

/-- The verb `%d` for an `int`. -/
def showInt (i : Int) : Text := (toString i).toList

/-- The single quote character. -/
def quote : Char := Char.ofNat 39

/-- The output of the two `fmt.Printf` calls under `-help`. -/
def usage : Text :=
  "This program demonstrates a simple p2p broadcast application using libp2p\n\n".toList ++
  "Usage: Run ".toList ++ [quote] ++ "./broadcast -sp <SOURCE_PORT>".toList ++ [quote] ++
  " where <SOURCE_PORT> can be any port number. Now run ".toList ++ [quote] ++
  "./broadcast -d <MULTIADDR>".toList ++ [quote] ++
  " where <MULTIADDR> is multiaddress of previous listener host.\n".toList

/-- The line telling how to connect to this host; `tail` is `"\n"` in the
listening branch and `"\n\n"` in the dialling branch. -/
def banner (L : AddrLib) (sp : Int) (id : PeerID) (tail : Text) : Text :=
  "Run ".toList ++ [quote] ++ "./broadcast -d /ip4/127.0.0.1/tcp/".toList ++ showInt sp ++
  "/ipfs/".toList ++ L.IDB58Encode id ++ [quote] ++
  " on another console.\n You can replace 127.0.0.1 with public IP as well.".toList ++ tail

/-- The text `fmt.Sprintf("/ip4/0.0.0.0/tcp/%d", *sourcePort)`. -/
def listenAddr (sp : Int) : Text := "/ip4/0.0.0.0/tcp/".toList ++ showInt sp

/-- The function `main`. -/
def main (L : AddrLib) (e : Env) (f : Flags) : MainState × Exit :=
  if f.help then
    ({ world := { World.init with stdout := usage }, host := none }, Exit.exit0)
  else if e.keyErr then
    ({ world := World.init, host := none }, Exit.panicked)
  else
    let sourceMultiAddr := L.NewMultiaddr (listenAddr f.sp)
    if e.hostErr then
      ({ world := World.init, host := none }, Exit.panicked)
    else
      let host := libp2pNew e.hostID sourceMultiAddr
      if f.d = [] then
        ({ world :=
            { World.init with
              stdout := banner L f.sp host.id ['\n'] ++
                "\nWaiting for incoming connection\n\n".toList
              tasks := [Task.writeData] },
           host := some (host.SetStreamHandler protocolID) }, Exit.hang)
      else
        match addAddrToPeerstore L host f.d with
        | Resolved.fatal => ({ world := World.init, host := some host }, Exit.fatal)
        | Resolved.panicked => ({ world := World.init, host := some host }, Exit.panicked)
        | Resolved.ok host1 peerID =>
          match e.dial host1 peerID with
          | none => ({ world := World.init, host := some host1 }, Exit.panicked)
          | some s =>
            let w := World.init
            ({ world :=
                { w with
                  dests := w.dests ++ [f.d]
                  heap := w.heap ++ [NewReadWriter s]
                  rws := w.rws ++ [w.heap.length]
                  tasks := w.tasks ++ [Task.readData w.heap.length, Task.writeData]
                  stdout := w.stdout ++ banner L f.sp host1.id ['\n', '\n'] },
               host := some ({ host1 with opened := host1.opened ++ [peerID] }.SetStreamHandler
                 protocolID) }, Exit.hang)

/-! ## Sequences of operations on the globals -/

/-- An operation of the running program on the globals: an inbound stream is
handled, the `readData` of a read/writer runs, or `writeData` performs one
iteration that read `line` without an error. -/
inductive Op where
  | handle (s : NetStream)
  | read (p : Nat)
  | write (line : Text)
  deriving DecidableEq, Repr

/-- The globals after one operation. -/
def Op.apply : Op → World → World
  | Op.handle s, w => handleStream w s
  | Op.read p, w => (readData w p).1
  | Op.write line, w => (writeData [{ str := line, err := false }] w).1

/-- The globals after a sequence of operations. -/
def run : List Op → World → World
  | [], w => w
  | o :: os, w => run os (o.apply w)

/-- Every pointer of the registry is the address of an object and no pointer
occurs twice. -/
def World.WF (w : World) : Prop := w.rws.Nodup ∧ ∀ p ∈ w.rws, p < w.heap.length

instance (w : World) : Decidable w.WF := by unfold World.WF; infer_instance

/-- The stream accepts `n` more bytes. -/
def NetStream.room (s : NetStream) (n : Nat) : Prop := ∀ k ∈ s.credit, n ≤ k

instance (s : NetStream) (n : Nat) : Decidable (s.room n) := by
  unfold NetStream.room; infer_instance

/-- A read/writer on which a write of `n` bytes succeeds: no sticky error,
nothing buffered, and a stream that accepts `n` more bytes. -/
def ReadWriter.healthy (rw : ReadWriter) (n : Nat) : Prop :=
  rw.w.err = false ∧ rw.w.buf = [] ∧ rw.w.wr.room n

instance (rw : ReadWriter) (n : Nat) : Decidable (rw.healthy n) := by
  unfold ReadWriter.healthy NetStream.room; infer_instance

/-! ## A reference instance of the address library -/

/-- Splits a text at every `sep`; `cur` is the piece being collected. -/
def splitOn (sep : Char) : Text → Text → List Text
  | cur, [] => [cur]
  | cur, c :: cs => if c = sep then cur :: splitOn sep [] cs else splitOn sep (cur ++ [c]) cs

/-- The protocol codes of the names `ip4`, `tcp`, `udp` and `ipfs`. -/
def protoCode (name : Text) : Option Nat :=
  if name = "ip4".toList then some 4
  else if name = "tcp".toList then some 6
  else if name = "udp".toList then some 273
  else if name = "ipfs".toList then some P_IPFS
  else none

/-- Reads the pieces of an address two by two, a protocol name and its value. -/
def parseComps : List Text → Option Multiaddr
  | [] => some []
  | [_] => none
  | name :: v :: more =>
    match protoCode name, parseComps more with
    | some c, some m => if v = [] then none else some ((c, v) :: m)
    | _, _ => none

/-- The position of the last occurrence of `o` in `m`. -/
def lastOcc (o : Multiaddr) : Multiaddr → Option Nat
  | [] => if o = [] then some 0 else none
  | c :: cs =>
    match lastOcc o cs with
    | some i => some (i + 1)
    | none => if o.isPrefixOf (c :: cs) then some 0 else none

/-- The answer of `ValueForProtocol` in `go-multiaddr`: the value of the first
component of `m` whose protocol is `code`. -/
def firstValue (m : Multiaddr) (code : Nat) : Option Text :=
  (m.find? (fun c => c.1 = code)).map (fun c => c.2)

/-- The answer of `Decapsulate` in `go-multiaddr`: `m` cut at the last
occurrence of `o`, or `m` itself when `o` does not occur in it. -/
def cutAtLast (m o : Multiaddr) : Multiaddr :=
  match lastOcc o m with
  | some i => m.take i
  | none => m

/-- A small instance of the library: addresses over `ip4`, `tcp`, `udp` and
`ipfs`, identities written with one character per byte.  `ValueForProtocol`
answers with the first component of the protocol, `Decapsulate` cuts at the
last occurrence of its argument. -/
def refLib : AddrLib where
  NewMultiaddr := fun t =>
    match splitOn '/' [] t with
    | [] :: segs => parseComps segs
    | _ => none
  ValueForProtocol := firstValue
  IDB58Decode := fun t =>
    if t ≠ [] ∧ t.all Char.isAlphanum then some { bytes := t.map Char.toNat } else none
  IDB58Encode := fun p => p.bytes.map Char.ofNat
  Decapsulate := cutAtLast

/-! ## Sample inputs -/

/-- A stream to a peer that accepts every write. -/
def liveStream : NetStream :=
  { peer := { bytes := [1] }, incoming := [], delivered := [], credit := none }

/-- A stream to a peer that is gone: every write fails. -/
def deadStream : NetStream :=
  { peer := { bytes := [2] }, incoming := [], delivered := [], credit := some 0 }

/-- A second stream to a peer that accepts every write. -/
def liveStream2 : NetStream :=
  { peer := { bytes := [3] }, incoming := [], delivered := [], credit := none }

/-- The operator line `"hi\n"`. -/
def hiLine : Text := ['h', 'i', '\n']

/-- What the display gains for one message read, in the words of the
specification: nothing for a message that is a single newline, otherwise the
green marker, the message, the reset marker and the prompt. -/
def renderSpec (str : Text) : Text :=
  if str = ['\n'] then [] else green ++ str ++ reset ++ prompt

/-- A stream on which a read reports an error together with data, and later
reads still return a line. -/
def errorThenLine : List ReadResult :=
  [{ str := ['a', 'b', 'c'], err := true }, { str := ['x', '\n'], err := false },
    { str := [], err := true }]

/-- The address part `/ip4/127.0.0.1/tcp/4001` of the sample locator. -/
def sampleAddress : Text := "/ip4/127.0.0.1/tcp/4001".toList

/-- The identity part `QmPeer` of the sample locator. -/
def sampleIdentity : Text := "QmPeer".toList

/-- The sample locator `/ip4/127.0.0.1/tcp/4001/ipfs/QmPeer`. -/
def sampleLocator : Text := sampleAddress ++ "/ipfs/".toList ++ sampleIdentity

/-- The components of `sampleAddress`. -/
def sampleAddr : Multiaddr := [(4, "127.0.0.1".toList), (6, "4001".toList)]

/-- The identity that `sampleIdentity` decodes to in `refLib`. -/
def samplePeer : PeerID := { bytes := [81, 109, 80, 101, 101, 114] }

/-- An outside world in which key generation, host creation and dialling
succeed; the dialled stream is `liveStream`. -/
def sampleEnv : Env :=
  { keyErr := false, hostErr := false, hostID := { bytes := [81, 109, 77, 101] },
    dial := fun _ _ => some liveStream }

/-- The flags `-sp 4002 -d /ip4/127.0.0.1/tcp/4001/ipfs/QmPeer`. -/
def sampleFlags : Flags := { sp := 4002, d := sampleLocator, help := false, debug := true }

/-- The flags `-sp 4002 -d garbage`. -/
def garbageFlags : Flags :=
  { sp := 4002, d := ['g', 'a', 'r', 'b', 'a', 'g', 'e'], help := false, debug := true }

/-- The host `libp2p.New` returns in the sample runs. -/
def sampleHost : Host := libp2pNew sampleEnv.hostID (refLib.NewMultiaddr (listenAddr 4002))

/-- The components of the listen address `/ip4/0.0.0.0/tcp/4002`. -/
def sampleListen : Multiaddr := [(4, "0.0.0.0".toList), (6, "4002".toList)]

/-- The registry used to witness C2: a live stream, a dead one and a second
live one, registered in this order. -/
def threeStreams : World :=
  handleStream (handleStream (handleStream World.init liveStream) deadStream) liveStream2

/-- The line `"hello\n"` without its newline. -/
def helloText : Text := ['h', 'e', 'l', 'l', 'o']

/-- The receiving node of the witness of C4: one stream whose reader returns
the lines of the bytes `"hello\n\n"`, the stream staying open. -/
def receiver : World :=
  handleStream World.init
    { peer := { bytes := [4] },
      incoming := ReadStringAll ((helloText ++ ['\n']) ++ ['\n']) false,
      delivered := [], credit := none }

/-! ## Lemmas on the heap -/

theorem length_updateAt {α : Type} (f : α → α) (p : Nat) (l : List α) :
    (updateAt f p l).length = l.length := by
  induction l generalizing p with
  | nil => cases p <;> rfl
  | cons x xs ih =>
    cases p with
    | zero => rfl
    | succ p => simp [updateAt, ih]

theorem getElem?_updateAt {α : Type} (f : α → α) (p q : Nat) (l : List α) :
    (updateAt f p l)[q]? = if p = q then l[q]?.map f else l[q]? := by
  induction l generalizing p q with
  | nil => cases p <;> simp [updateAt]
  | cons x xs ih =>
    cases p with
    | zero =>
      cases q with
      | zero => simp [updateAt]
      | succ q => simp [updateAt]
    | succ p =>
      cases q with
      | zero => simp [updateAt]
      | succ q => simp [updateAt, ih]

theorem length_foldl_updateAt {α : Type} (f : α → α) (ps : List Nat) (h : List α) :
    (ps.foldl (fun h p => updateAt f p h) h).length = h.length := by
  induction ps generalizing h with
  | nil => rfl
  | cons p ps ih => simp [List.foldl, ih, length_updateAt]

theorem getElem?_foldl_updateAt {α : Type} (f : α → α) (ps : List Nat) (h : List α) (q : Nat)
    (hnd : ps.Nodup) :
    (ps.foldl (fun h p => updateAt f p h) h)[q]? = if q ∈ ps then h[q]?.map f else h[q]? := by
  induction ps generalizing h with
  | nil => simp
  | cons p ps ih =>
    rw [List.nodup_cons] at hnd
    rw [List.foldl_cons, ih _ hnd.2, getElem?_updateAt]
    by_cases hpq : p = q
    · subst hpq
      simp [hnd.1]
    · have hqp : ¬ q = p := fun h => hpq h.symm
      simp [hpq, hqp]

/-! ## Lemmas on `bufio.Writer` -/

theorem Flush_ok (b : Writer) (m : Nat) (herr : b.err = false)
    (hroom : b.wr.room (b.buf.length + m)) :
    b.Flush.err = false ∧ b.Flush.buf = [] ∧
      b.Flush.wr.delivered = b.wr.delivered ++ b.buf ∧ b.Flush.wr.room m := by
  unfold Writer.Flush
  by_cases hb : b.buf.length = 0
  · have hnil : b.buf = [] := List.length_eq_zero.mp hb
    have hroom2 : b.wr.room m := by
      intro k hk
      have := hroom k hk
      omega
    simp [herr, hnil, hroom2]
  · simp only [herr, hb, Bool.false_eq_true, if_false]
    unfold NetStream.Write
    cases hc : b.wr.credit with
    | none =>
      simp [NetStream.room]
    | some k =>
      have hk := hroom k hc
      have hle : b.buf.length ≤ k := by omega
      simp only [hle, if_true, NetStream.room]
      simp
      omega

theorem writeStringLoop_ok (fuel : Nat) (b : Writer) (s : Text) (herr : b.err = false)
    (hroom : b.wr.room (b.buf.length + s.length))
    (hfuel : (b.buf = [] ∧ s.length ≤ fuel) ∨ s.length + 1 ≤ fuel) :
    (Writer.writeStringLoop fuel b s).1.err = false ∧
      (Writer.writeStringLoop fuel b s).1.wr.delivered ++ (Writer.writeStringLoop fuel b s).1.buf
          ++ (Writer.writeStringLoop fuel b s).2 = b.wr.delivered ++ b.buf ++ s ∧
      (Writer.writeStringLoop fuel b s).2.length ≤ (Writer.writeStringLoop fuel b s).1.Available ∧
      (Writer.writeStringLoop fuel b s).1.wr.room
        ((Writer.writeStringLoop fuel b s).1.buf.length + (Writer.writeStringLoop fuel b s).2.length) := by
  induction fuel generalizing b s with
  | zero =>
    have hs : s = [] := by
      rcases hfuel with h | h
      · exact List.length_eq_zero.mp (Nat.le_zero.mp h.2)
      · omega
    subst hs
    have h0 : Writer.writeStringLoop 0 b [] = (b, []) := rfl
    rw [h0]
    exact ⟨herr, rfl, Nat.zero_le _, hroom⟩
  | succ fuel ih =>
    by_cases hc : b.Available < s.length ∧ b.err = false
    · have hmin : min s.length b.Available = b.Available := by
        have := hc.1
        omega
      have hstep : Writer.writeStringLoop (fuel + 1) b s =
          Writer.writeStringLoop fuel
            ({ b with buf := b.buf ++ s.take b.Available }).Flush (s.drop b.Available) := by
        simp only [Writer.writeStringLoop, if_pos hc, hmin]
      have hav : b.Available = bufSize - b.buf.length := rfl
      have hfl := Flush_ok { b with buf := b.buf ++ s.take b.Available }
        (s.drop b.Available).length herr (by
          intro k hk
          have := hroom k hk
          simp only [List.length_append, List.length_take, List.length_drop]
          omega)
      obtain ⟨e1, e2, e3, e4⟩ := hfl
      have hlen : (s.drop b.Available).length ≤ fuel := by
        simp only [List.length_drop]
        rcases hfuel with h | h
        · have hb : b.buf.length = 0 := by simp [h.1]
          have h2 := h.2
          have : b.Available = 4096 := by rw [hav, hb]; rfl
          have := hc.1
          omega
        · omega
      have := ih _ (s.drop b.Available) e1 (by simpa [e2] using e4) (Or.inl ⟨e2, hlen⟩)
      rw [hstep]
      refine ⟨this.1, ?_, this.2.2.1, this.2.2.2⟩
      rw [this.2.1, e3, e2]
      simp [List.append_assoc]
    · have hstep : Writer.writeStringLoop (fuel + 1) b s = (b, s) := by
        simp only [Writer.writeStringLoop, if_neg hc]
      rw [hstep]
      refine ⟨herr, rfl, ?_, hroom⟩
      show s.length ≤ b.Available
      by_contra hlt
      exact hc ⟨by omega, herr⟩

theorem WriteString_Flush_ok (b : Writer) (s : Text) (herr : b.err = false)
    (hroom : b.wr.room (b.buf.length + s.length)) :
    (b.WriteString s).Flush.err = false ∧ (b.WriteString s).Flush.buf = [] ∧
      (b.WriteString s).Flush.wr.delivered = b.wr.delivered ++ b.buf ++ s := by
  obtain ⟨h1, h2, h3, h4⟩ := writeStringLoop_ok (s.length + 1) b s herr hroom (Or.inr (le_refl _))
  have hW : b.WriteString s =
      { (Writer.writeStringLoop (s.length + 1) b s).1 with
        buf := (Writer.writeStringLoop (s.length + 1) b s).1.buf ++
          (Writer.writeStringLoop (s.length + 1) b s).2 } := by
    simp only [Writer.WriteString, h1, Bool.false_eq_true, if_false]
    rw [Nat.min_eq_left h3, List.take_length]
  have hfl := Flush_ok (b.WriteString s) 0 (by rw [hW]; exact h1) (by
    rw [hW]
    simpa using h4)
  refine ⟨hfl.1, hfl.2.1, ?_⟩
  rw [hfl.2.2.1, hW]
  simpa [List.append_assoc] using h2

theorem send_healthy (sendData : Text) (rw : ReadWriter)
    (h : rw.healthy (sendData.length + 1)) :
    (send sendData rw).w.wr.delivered = rw.w.wr.delivered ++ sendData ++ ['\n'] ∧
      (send sendData rw).w.buf = [] ∧ (send sendData rw).w.err = false ∧
      (send sendData rw).rd = rw.rd := by
  obtain ⟨herr, hbuf, hcredit⟩ := h
  have := WriteString_Flush_ok rw.w (sendData ++ ['\n']) herr (by
    intro k hk
    have := hcredit k hk
    simp [hbuf]
    omega)
  refine ⟨?_, this.2.1, this.1, rfl⟩
  simp only [send]
  rw [this.2.2, hbuf]
  simp

theorem Flush_err_or_empty (b : Writer) (hb : b.buf ≠ []) :
    b.Flush.err = true ∨ b.Flush.buf = [] := by
  unfold Writer.Flush
  by_cases he : b.err = true
  · simp [he]
  · have hlen : ¬ b.buf.length = 0 := fun h => hb (List.length_eq_zero.mp h)
    have he2 : b.err = false := by simpa using he
    simp only [he2, hlen, if_false, Bool.false_eq_true]
    by_cases hw : ((b.wr.Write b.buf).2.2 || decide ((b.wr.Write b.buf).2.1 < b.buf.length)) = true
    · simp [hw]
    · simp [hw]

/-- The fuel `WriteString` gives its loop is enough: the loop ends because its
condition is false, never because the fuel ran out. -/
theorem writeStringLoop_exit (fuel : Nat) (b : Writer) (s : Text)
    (hfuel : ((b.buf = [] ∨ b.err = true) ∧ s.length ≤ fuel) ∨ s.length + 1 ≤ fuel) :
    ¬ ((Writer.writeStringLoop fuel b s).1.Available < (Writer.writeStringLoop fuel b s).2.length ∧
        (Writer.writeStringLoop fuel b s).1.err = false) := by
  induction fuel generalizing b s with
  | zero =>
    have hs : s = [] := by
      rcases hfuel with h | h
      · exact List.length_eq_zero.mp (Nat.le_zero.mp h.2)
      · omega
    subst hs
    have h0 : Writer.writeStringLoop 0 b [] = (b, []) := rfl
    rw [h0]
    simp
  | succ fuel ih =>
    by_cases hc : b.Available < s.length ∧ b.err = false
    · have hmin : min s.length b.Available = b.Available := by
        have := hc.1
        omega
      have hstep : Writer.writeStringLoop (fuel + 1) b s =
          Writer.writeStringLoop fuel
            ({ b with buf := b.buf ++ s.take b.Available }).Flush (s.drop b.Available) := by
        simp only [Writer.writeStringLoop, if_pos hc, hmin]
      have hav : b.Available = bufSize - b.buf.length := rfl
      have hne : b.buf ++ s.take b.Available ≠ [] := by
        intro h
        have h1 := congrArg List.length h
        simp only [List.length_append, List.length_take, List.length_nil] at h1
        have h2 := hc.1
        have h3 : bufSize = 4096 := rfl
        omega
      have hfl := Flush_err_or_empty { b with buf := b.buf ++ s.take b.Available } hne
      have hlen : (s.drop b.Available).length ≤ fuel := by
        simp only [List.length_drop]
        rcases hfuel with h | h
        · have hbe : b.buf = [] := by
            rcases h.1 with h1 | h1
            · exact h1
            · rw [hc.2] at h1
              exact absurd h1 (by decide)
          have hb : b.buf.length = 0 := by simp [hbe]
          have h2 := h.2
          have : b.Available = 4096 := by rw [hav, hb]; rfl
          have := hc.1
          omega
        · omega
      rw [hstep]
      exact ih _ _ (Or.inl ⟨hfl.symm, hlen⟩)
    · have hstep : Writer.writeStringLoop (fuel + 1) b s = (b, s) := by
        simp only [Writer.writeStringLoop, if_neg hc]
      rw [hstep]
      exact hc

/-- The loop inside `WriteString` always ends by its own condition: whatever
the state of the writer, the text left over fits the buffer or the error is
set. -/
theorem WriteString_loop_ends (b : Writer) (s : Text) :
    (Writer.writeStringLoop (s.length + 1) b s).2.length ≤
        (Writer.writeStringLoop (s.length + 1) b s).1.Available ∨
      (Writer.writeStringLoop (s.length + 1) b s).1.err = true := by
  have h := writeStringLoop_exit (s.length + 1) b s (Or.inr (le_refl _))
  by_cases he : (Writer.writeStringLoop (s.length + 1) b s).1.err = true
  · exact Or.inr he
  · left
    have he2 : (Writer.writeStringLoop (s.length + 1) b s).1.err = false := by simpa using he
    by_contra hlt
    exact h ⟨by omega, he2⟩

/-! ## Lemmas on the globals -/

theorem broadcast_getElem? (w : World) (sendData : Text) (q : Nat) (hnd : w.rws.Nodup) :
    (broadcast w sendData).heap[q]? =
      if q ∈ w.rws then w.heap[q]?.map (send sendData) else w.heap[q]? :=
  getElem?_foldl_updateAt (send sendData) w.rws w.heap q hnd

theorem writeData_ok (line : Text) (rest : List ReadResult) (w : World) :
    writeData ({ str := line, err := false } :: rest) w =
      writeData rest (broadcast { w with stdout := w.stdout ++ prompt } line) := by
  simp [writeData]

theorem writeData_one (line : Text) (w : World) :
    (writeData [{ str := line, err := false }] w).1 =
      { broadcast { w with stdout := w.stdout ++ prompt } line with
        stdout := w.stdout ++ prompt ++ prompt } := by
  simp [writeData, broadcast]

theorem handleStream_WF (w : World) (s : NetStream) (h : w.WF) : (handleStream w s).WF := by
  obtain ⟨hnd, hlt⟩ := h
  constructor
  · show (w.rws ++ [w.heap.length]).Nodup
    rw [List.nodup_append]
    refine ⟨hnd, List.nodup_singleton _, ?_⟩
    intro a ha hb
    have h1 := hlt a ha
    have h2 : a = w.heap.length := by simpa using hb
    omega
  · intro p hp
    have hp2 : p ∈ w.rws ++ [w.heap.length] := hp
    show p < (w.heap ++ [NewReadWriter s]).length
    rw [List.mem_append] at hp2
    rw [List.length_append]
    rcases hp2 with h1 | h1
    · have := hlt p h1
      omega
    · have h2 : p = w.heap.length := by simpa using h1
      simp [h2]

theorem readData_rws (w : World) (p : Nat) : (readData w p).1.rws = w.rws := by
  unfold readData
  split <;> rfl

theorem readData_length (w : World) (p : Nat) : (readData w p).1.heap.length = w.heap.length := by
  unfold readData
  split
  · rfl
  · simp [length_updateAt]

theorem broadcast_rws (w : World) (line : Text) : (broadcast w line).rws = w.rws := rfl

theorem broadcast_length (w : World) (line : Text) :
    (broadcast w line).heap.length = w.heap.length :=
  length_foldl_updateAt _ _ _

theorem writeData_rws (script : List ReadResult) (w : World) :
    (writeData script w).1.rws = w.rws := by
  induction script generalizing w with
  | nil => rfl
  | cons r rest ih =>
    by_cases he : r.err = true
    · simp [writeData, he]
    · simp only [writeData, he, Bool.false_eq_true, if_false]
      rw [ih]
      rfl

theorem writeData_length (script : List ReadResult) (w : World) :
    (writeData script w).1.heap.length = w.heap.length := by
  induction script generalizing w with
  | nil => rfl
  | cons r rest ih =>
    by_cases he : r.err = true
    · simp [writeData, he]
    · simp only [writeData, he, Bool.false_eq_true, if_false]
      rw [ih, broadcast_length]

theorem apply_WF (o : Op) (w : World) (h : w.WF) : (o.apply w).WF := by
  cases o with
  | handle s => exact handleStream_WF w s h
  | read p =>
    show (readData w p).1.WF
    unfold World.WF
    rw [readData_rws, readData_length]
    exact h
  | write line =>
    show (writeData _ w).1.WF
    unfold World.WF
    rw [writeData_rws, writeData_length]
    exact h

/-- Every state the operations reach from the initial state has a well-formed
registry. -/
theorem run_WF (ops : List Op) (w : World) (h : w.WF) : (run ops w).WF := by
  induction ops generalizing w with
  | nil => exact h
  | cons o os ih => exact ih _ (apply_WF o w h)

/-- The globals `main` leaves have a well-formed registry. -/
theorem main_WF (L : AddrLib) (e : Env) (f : Flags) : (main L e f).1.world.WF := by
  have h0 : ∀ w : World, w.rws = [] → w.WF := by
    intro w hw
    unfold World.WF
    rw [hw]
    exact ⟨List.nodup_nil, fun p hp => absurd hp (List.not_mem_nil p)⟩
  cases h1 : f.help with
  | true =>
    simp only [main, h1, if_true]
    exact h0 _ rfl
  | false =>
  cases h2 : e.keyErr with
  | true =>
    simp only [main, h1, h2, if_true, if_false, Bool.false_eq_true]
    exact h0 _ rfl
  | false =>
  cases h3 : e.hostErr with
  | true =>
    simp only [main, h1, h2, h3, if_true, if_false, Bool.false_eq_true]
    exact h0 _ rfl
  | false =>
  by_cases h4 : f.d = []
  · simp only [main, h1, h2, h3, h4, if_true, if_false, Bool.false_eq_true]
    exact h0 _ rfl
  cases hr : addAddrToPeerstore L (libp2pNew e.hostID (L.NewMultiaddr (listenAddr f.sp))) f.d with
  | fatal =>
    simp only [main, h1, h2, h3, h4, if_false, Bool.false_eq_true, hr]
    exact h0 _ rfl
  | panicked =>
    simp only [main, h1, h2, h3, h4, if_false, Bool.false_eq_true, hr]
    exact h0 _ rfl
  | ok host1 peerID =>
    cases hdial : e.dial host1 peerID with
    | none =>
      simp only [main, h1, h2, h3, h4, if_false, Bool.false_eq_true, hr, hdial]
      exact h0 _ rfl
    | some s =>
      simp only [main, h1, h2, h3, h4, if_false, Bool.false_eq_true, hr, hdial]
      refine ⟨List.nodup_singleton _, ?_⟩
      intro p hp
      have hp0 : p = 0 := by simpa [World.init] using hp
      subst hp0
      simp [World.init]

/-! ## C1: fan-out -/

/-- C1, as stated, fails: with one registered stream whose peer is gone, the
broadcast of the line `"hi\n"` does not make the delivered bytes of every
registered stream grow by the line and a newline with an empty write buffer;
nothing is delivered and the four bytes stay in the buffer. -/
theorem fanout_every_stream_counterexample :
    (handleStream World.init deadStream).WF ∧
    ¬ (∀ p ∈ (handleStream World.init deadStream).rws,
        ((writeData [{ str := hiLine, err := false }]
            (handleStream World.init deadStream)).1.heap[p]?).map
            (fun rw => (rw.w.wr.delivered, rw.w.buf)) =
          ((handleStream World.init deadStream).heap[p]?).map
            (fun rw => (rw.w.wr.delivered ++ hiLine ++ ['\n'], ([] : Text)))) ∧
    ((writeData [{ str := hiLine, err := false }]
        (handleStream World.init deadStream)).1.heap.map
        (fun rw => (rw.w.wr.delivered, rw.w.buf, rw.w.err))) =
      [([], ['h', 'i', '\n', '\n'], true)] := by
  decide

/-- C1, amended: in a well-formed registry, after the broadcast iteration for a
line `M` read without an error, every registered stream whose writer has no
earlier error, an empty buffer and a connection that accepts the bytes has been
sent to exactly once: its delivered bytes have grown by exactly `M` and one
newline, and its write buffer is empty.  The registry itself and the objects
outside it are unchanged. -/
theorem fanout_healthy_streams (w : World) (M : Text) (hwf : w.WF) :
    (∀ p ∈ w.rws, ∀ rw, w.heap[p]? = some rw → rw.healthy (M.length + 1) →
      (writeData [{ str := M, err := false }] w).1.heap[p]? = some (send M rw) ∧
      (send M rw).w.wr.delivered = rw.w.wr.delivered ++ M ++ ['\n'] ∧
      (send M rw).w.buf = [] ∧ (send M rw).w.err = false) ∧
    (writeData [{ str := M, err := false }] w).1.rws = w.rws ∧
    (∀ q, q ∉ w.rws → (writeData [{ str := M, err := false }] w).1.heap[q]? = w.heap[q]?) := by
  refine ⟨?_, writeData_rws _ _, ?_⟩
  · intro p hp rw hrw hh
    obtain ⟨h1, h2, h3, _⟩ := send_healthy M rw hh
    refine ⟨?_, h1, h2, h3⟩
    rw [writeData_one]
    have hb := broadcast_getElem? { w with stdout := w.stdout ++ prompt } M p hwf.1
    simp only [hp, hrw, if_true, Option.map_some'] at hb
    exact hb
  · intro q hq
    rw [writeData_one]
    have hb := broadcast_getElem? { w with stdout := w.stdout ++ prompt } M q hwf.1
    simp only [hq, if_false] at hb
    exact hb

/-- Witness of C1 amended: two live streams, the line `"hi\n"`. -/
theorem fanout_healthy_streams_witness :
    (handleStream (handleStream World.init liveStream) liveStream2).WF ∧
    ((writeData [{ str := hiLine, err := false }]
        (handleStream (handleStream World.init liveStream) liveStream2)).1.heap.map
        (fun rw => (rw.w.wr.delivered, rw.w.buf))) =
      [(['h', 'i', '\n', '\n'], []), (['h', 'i', '\n', '\n'], [])] ∧
    ((∀ p ∈ (handleStream (handleStream World.init liveStream) liveStream2).rws, ∀ rw,
      (handleStream (handleStream World.init liveStream) liveStream2).heap[p]? = some rw →
      rw.healthy (hiLine.length + 1) →
      (writeData [{ str := hiLine, err := false }]
        (handleStream (handleStream World.init liveStream) liveStream2)).1.heap[p]? =
          some (send hiLine rw) ∧
      (send hiLine rw).w.wr.delivered = rw.w.wr.delivered ++ hiLine ++ ['\n'] ∧
      (send hiLine rw).w.buf = [] ∧ (send hiLine rw).w.err = false) ∧
    (writeData [{ str := hiLine, err := false }]
      (handleStream (handleStream World.init liveStream) liveStream2)).1.rws =
      (handleStream (handleStream World.init liveStream) liveStream2).rws ∧
    (∀ q, q ∉ (handleStream (handleStream World.init liveStream) liveStream2).rws →
      (writeData [{ str := hiLine, err := false }]
        (handleStream (handleStream World.init liveStream) liveStream2)).1.heap[q]? =
      (handleStream (handleStream World.init liveStream) liveStream2).heap[q]?)) :=
  ⟨by decide, by decide,
    fanout_healthy_streams (handleStream (handleStream World.init liveStream) liveStream2)
      hiLine (by decide)⟩

/-! ## C2: isolation -/

/-- C2: in a well-formed registry, when the write or the flush to a registered
stream `p1` fails during the broadcast of `M` (its writer ends with the error
set), every other registered stream `p2`, wherever it stands in the registry,
is still sent `M`: its object after the broadcast is the result of the write
and the flush on it alone, the same as in a broadcast without `p1` in the
registry, and if it is healthy its delivered bytes have grown by `M` and a
newline with nothing left buffered.  The loop then goes on with the next
read. -/
theorem isolation (w : World) (M : Text) (rest : List ReadResult) (hwf : w.WF)
    (p1 p2 : Nat) (rw1 rw2 : ReadWriter) (h1 : p1 ∈ w.rws) (h2 : p2 ∈ w.rws) (hne : p1 ≠ p2)
    (hrw1 : w.heap[p1]? = some rw1) (hrw2 : w.heap[p2]? = some rw2)
    (hfail : (send M rw1).w.err = true) :
    (∃ rw1', (broadcast { w with stdout := w.stdout ++ prompt } M).heap[p1]? = some rw1' ∧
      rw1'.w.err = true) ∧
    (broadcast { w with stdout := w.stdout ++ prompt } M).heap[p2]? = some (send M rw2) ∧
    (broadcast { w with stdout := w.stdout ++ prompt, rws := w.rws.erase p1 } M).heap[p2]? =
      some (send M rw2) ∧
    (rw2.healthy (M.length + 1) →
      (send M rw2).w.wr.delivered = rw2.w.wr.delivered ++ M ++ ['\n'] ∧
      (send M rw2).w.buf = [] ∧ (send M rw2).w.err = false) ∧
    writeData ({ str := M, err := false } :: rest) w =
      writeData rest (broadcast { w with stdout := w.stdout ++ prompt } M) := by
  have hb1 := broadcast_getElem? { w with stdout := w.stdout ++ prompt } M p1 hwf.1
  have hb2 := broadcast_getElem? { w with stdout := w.stdout ++ prompt } M p2 hwf.1
  have hb3 := broadcast_getElem?
    { w with stdout := w.stdout ++ prompt, rws := w.rws.erase p1 } M p2 (hwf.1.erase p1)
  have hmem : p2 ∈ w.rws.erase p1 := (hwf.1.mem_erase_iff).mpr ⟨fun e => hne e.symm, h2⟩
  simp only [h1, hrw1, if_true, Option.map_some'] at hb1
  simp only [h2, hrw2, if_true, Option.map_some'] at hb2
  simp only [hmem, hrw2, if_true, Option.map_some'] at hb3
  refine ⟨⟨_, hb1, hfail⟩, hb2, hb3, ?_, writeData_ok M rest w⟩
  intro hh
  obtain ⟨a, b, c, _⟩ := send_healthy M rw2 hh
  exact ⟨a, b, c⟩

/-- Witness of C2: in `threeStreams` the dead stream fails, and the live
streams before and after it both receive the line. -/
theorem isolation_witness :
    ((writeData [{ str := hiLine, err := false }] threeStreams).1.heap.map
        (fun rw => (rw.w.wr.delivered, rw.w.err))) =
      [(['h', 'i', '\n', '\n'], false), ([], true), (['h', 'i', '\n', '\n'], false)] ∧
    ((∃ rw1', (broadcast { threeStreams with stdout := threeStreams.stdout ++ prompt }
          hiLine).heap[1]? = some rw1' ∧ rw1'.w.err = true) ∧
      (broadcast { threeStreams with stdout := threeStreams.stdout ++ prompt } hiLine).heap[2]? =
        some (send hiLine (NewReadWriter liveStream2)) ∧
      (broadcast { threeStreams with
          stdout := threeStreams.stdout ++ prompt, rws := threeStreams.rws.erase 1 }
        hiLine).heap[2]? = some (send hiLine (NewReadWriter liveStream2)) ∧
      ((NewReadWriter liveStream2).healthy (hiLine.length + 1) →
        (send hiLine (NewReadWriter liveStream2)).w.wr.delivered =
          (NewReadWriter liveStream2).w.wr.delivered ++ hiLine ++ ['\n'] ∧
        (send hiLine (NewReadWriter liveStream2)).w.buf = [] ∧
        (send hiLine (NewReadWriter liveStream2)).w.err = false) ∧
      writeData ({ str := hiLine, err := false } :: [{ str := [], err := true }]) threeStreams =
        writeData [{ str := [], err := true }]
          (broadcast { threeStreams with stdout := threeStreams.stdout ++ prompt } hiLine)) :=
  ⟨by decide,
    isolation threeStreams hiLine [{ str := [], err := true }] (by decide) 1 2
      (NewReadWriter deadStream) (NewReadWriter liveStream2) (by decide) (by decide) (by decide)
      (by decide) (by decide) (by decide)⟩

/-! ## C7: a failed read of the operator line -/

theorem linesFrom_no_newline (cur data : Text) (h : '\n' ∉ data) :
    linesFrom cur data = ([], cur ++ data) := by
  induction data generalizing cur with
  | nil => simp [linesFrom]
  | cons c cs ih =>
    have hc : c ≠ '\n' := fun e => h (by simp [e])
    have hcs : '\n' ∉ cs := fun e => h (List.mem_cons_of_mem _ e)
    simp [linesFrom, hc, ih _ hcs]

/-- C7: when the read of the operator line reports an error, `writeData` panics
after printing the prompt, with no object of the heap and no registry entry
changed and no further line read; this is what happens when the input ends
after a line without a newline (or ends at once); and whenever a run of
`writeData` has changed an object, its first read succeeded. -/
theorem local_input_failure_fatal :
    (∀ (r : ReadResult) (rest : List ReadResult) (w : World), r.err = true →
      writeData (r :: rest) w = ({ w with stdout := w.stdout ++ prompt }, WriteEnd.panicked)) ∧
    (∀ (data : Text) (w : World), '\n' ∉ data →
      writeData (ReadStringAll data true) w =
        ({ w with stdout := w.stdout ++ prompt }, WriteEnd.panicked)) ∧
    (∀ (script : List ReadResult) (w : World), (writeData script w).1.heap ≠ w.heap →
      ∃ r rest, script = r :: rest ∧ r.err = false) := by
  refine ⟨?_, ?_, ?_⟩
  · intro r rest w h
    simp [writeData, h]
  · intro data w h
    have hl := linesFrom_no_newline [] data h
    simp only [List.nil_append] at hl
    by_cases hd : data = []
    · simp [ReadStringAll, hl, hd, writeData]
    · simp [ReadStringAll, hl, hd, writeData]
  · intro script w h
    cases script with
    | nil => exact absurd rfl h
    | cons r rest =>
      refine ⟨r, rest, rfl, ?_⟩
      by_contra he
      have he2 : r.err = true := by simpa using he
      apply h
      simp [writeData, he2]

/-- Witness of C7: the operator input ends after `"hi"` without a newline while
a live stream is registered; `writeData` panics and nothing is delivered. -/
theorem local_input_failure_fatal_witness :
    writeData (ReadStringAll ['h', 'i'] true) (handleStream World.init liveStream) =
      ({ handleStream World.init liveStream with
          stdout := (handleStream World.init liveStream).stdout ++ prompt },
        WriteEnd.panicked) ∧
    ReadStringAll ['h', 'i'] true = [{ str := ['h', 'i'], err := true }, { str := [], err := true }] :=
  ⟨local_input_failure_fatal.2.1 ['h', 'i'] (handleStream World.init liveStream) (by decide),
    by decide⟩

/-! ## C3, C6: the loop of `readData` -/

theorem readDataLoop_cons_nonempty (r : ReadResult) (rs : List ReadResult) (out : Text)
    (h : r.str ≠ []) :
    readDataLoop (r :: rs) out = readDataLoop rs (out ++ renderSpec r.str) := by
  by_cases hn : r.str = ['\n']
  · simp [readDataLoop, renderSpec, h, hn]
  · simp [readDataLoop, renderSpec, h, hn]

theorem readDataLoop_until_empty (pre post : List ReadResult) (r : ReadResult) (out : Text)
    (hpre : ∀ x ∈ pre, x.str ≠ []) (hr : r.str = []) :
    readDataLoop (pre ++ r :: post) out =
      { stdout := out ++ (pre.map (fun x => renderSpec x.str)).flatten, rest := post,
        status := Status.returned } := by
  induction pre generalizing out with
  | nil => simp [readDataLoop, hr]
  | cons x xs ih =>
    have hx : x.str ≠ [] := hpre x (List.mem_cons_self _ _)
    rw [List.cons_append, readDataLoop_cons_nonempty _ _ _ hx,
      ih _ (fun y hy => hpre y (List.mem_cons_of_mem _ hy))]
    simp [List.append_assoc]

theorem readDataLoop_no_empty (script : List ReadResult) (out : Text)
    (h : ∀ x ∈ script, x.str ≠ []) :
    readDataLoop script out =
      { stdout := out ++ (script.map (fun x => renderSpec x.str)).flatten, rest := [],
        status := Status.blocked } := by
  induction script generalizing out with
  | nil => simp [readDataLoop]
  | cons x xs ih =>
    have hx : x.str ≠ [] := h x (List.mem_cons_self _ _)
    rw [readDataLoop_cons_nonempty _ _ _ hx, ih _ (fun y hy => h y (List.mem_cons_of_mem _ hy))]
    simp [List.append_assoc]

theorem readDataLoop_stdout (script : List ReadResult) (out : Text) :
    (readDataLoop script out).stdout =
      out ++ ((script.takeWhile (fun r => decide (r.str ≠ []))).map
        (fun x => renderSpec x.str)).flatten := by
  induction script generalizing out with
  | nil => simp [readDataLoop]
  | cons x xs ih =>
    by_cases hx : x.str = []
    · simp [readDataLoop, hx, List.takeWhile]
    · rw [readDataLoop_cons_nonempty _ _ _ hx, ih]
      simp [List.takeWhile, hx, List.append_assoc]

/-- C3: for a message `r.str` that the loop of `readData` reads, a single
newline writes nothing to the display and the loop goes on; any other non-empty
string appends to the display exactly the green marker, the string, the reset
marker and the prompt, once, and the loop goes on.  Over a whole run the
display gains exactly this rendering for every message read before the first
empty one. -/
theorem blank_line_suppression (r : ReadResult) (rs : List ReadResult) (out : Text) :
    (r.str = ['\n'] → readDataLoop (r :: rs) out = readDataLoop rs out) ∧
    (r.str ≠ [] → r.str ≠ ['\n'] →
      readDataLoop (r :: rs) out = readDataLoop rs (out ++ green ++ r.str ++ reset ++ prompt)) ∧
    (readDataLoop (r :: rs) out).stdout =
      out ++ (((r :: rs).takeWhile (fun x => decide (x.str ≠ []))).map
        (fun x => if x.str = ['\n'] then [] else green ++ x.str ++ reset ++ prompt)).flatten := by
  refine ⟨?_, ?_, ?_⟩
  · intro h
    simp [readDataLoop, h]
  · intro h1 h2
    simp [readDataLoop, h1, h2]
  · exact readDataLoop_stdout (r :: rs) out

/-- Witness of C3: the messages `"hi\n"` and `"\n"` followed by the end of the
stream put the rendering of `"hi\n"` on the display once, and nothing else. -/
theorem blank_line_suppression_witness :
    (readDataLoop [{ str := hiLine, err := false }, { str := ['\n'], err := false },
        { str := [], err := true }] []).stdout =
      ['\x1b', '[', '3', '2', 'm', 'h', 'i', '\n', '\x1b', '[', '0', 'm', '>', ' '] ∧
    readDataLoop [{ str := ['\n'], err := false }, { str := [], err := true }] prompt =
      readDataLoop [{ str := [], err := true }] prompt ∧
    readDataLoop [{ str := hiLine, err := false }, { str := [], err := true }] prompt =
      readDataLoop [{ str := [], err := true }] (prompt ++ green ++ hiLine ++ reset ++ prompt) :=
  ⟨by decide,
    (blank_line_suppression { str := ['\n'], err := false } [{ str := [], err := true }]
      prompt).1 rfl,
    (blank_line_suppression { str := hiLine, err := false } [{ str := [], err := true }]
      prompt).2.1 (by decide) (by decide)⟩

/-- C6, as stated, fails: on `errorThenLine` the first read reports an error,
yet the loop does not stop there; it renders the data of that read, performs
the two later reads and renders the line `"x\n"` of the second.  Likewise on a
stream closed after the bytes `abc` the read that reports the end of input
with `abc` is followed by one more read. -/
theorem reader_stops_at_error_counterexample :
    (errorThenLine.head?.map (fun r => r.err)) = some true ∧
    (readDataLoop errorThenLine []).rest ≠ errorThenLine.drop 1 ∧
    (readDataLoop errorThenLine []).rest = [] ∧
    (readDataLoop errorThenLine []).stdout =
      green ++ ['a', 'b', 'c'] ++ reset ++ prompt ++ (green ++ ['x', '\n'] ++ reset ++ prompt) ∧
    (readDataLoop errorThenLine []).status = Status.returned ∧
    ReadStringAll ['a', 'b', 'c'] true =
      [{ str := ['a', 'b', 'c'], err := true }, { str := [], err := true }] ∧
    (readDataLoop (ReadStringAll ['a', 'b', 'c'] true) []).rest = [] := by
  decide

/-- C6, amended: the loop of `readData` runs until the first read that returns
an empty string and returns there: the results after it are never asked for
and nothing of them is rendered, the display holding the renderings of the
reads before it.  A read that returns data is rendered and followed by another
read, whether or not it reports an error; with no empty read the loop consumes
every result and waits. -/
theorem reader_stops_at_first_empty (pre post : List ReadResult) (r : ReadResult) (out : Text)
    (hpre : ∀ x ∈ pre, x.str ≠ []) (hr : r.str = []) :
    readDataLoop (pre ++ r :: post) out =
      { stdout := out ++ (pre.map (fun x => renderSpec x.str)).flatten, rest := post,
        status := Status.returned } ∧
    readDataLoop pre out =
      { stdout := out ++ (pre.map (fun x => renderSpec x.str)).flatten, rest := [],
        status := Status.blocked } :=
  ⟨readDataLoop_until_empty pre post r out hpre hr, readDataLoop_no_empty pre out hpre⟩

/-- Witness of C6 amended: after `"hi\n"` the stream ends; a line that a later
read would return is neither read nor rendered. -/
theorem reader_stops_at_first_empty_witness :
    readDataLoop ([{ str := hiLine, err := false }] ++ { str := [], err := true } ::
        [{ str := ['x', '\n'], err := false }]) [] =
      { stdout := [] ++ (([{ str := hiLine, err := false }] : List ReadResult).map
          (fun x => renderSpec x.str)).flatten,
        rest := [{ str := ['x', '\n'], err := false }], status := Status.returned } ∧
    readDataLoop [{ str := hiLine, err := false }] [] =
      { stdout := [] ++ (([{ str := hiLine, err := false }] : List ReadResult).map
          (fun x => renderSpec x.str)).flatten,
        rest := [], status := Status.blocked } :=
  reader_stops_at_first_empty [{ str := hiLine, err := false }]
    [{ str := ['x', '\n'], err := false }] { str := [], err := true } [] (by decide) rfl

/-! ## C4: from `writeData` to `readData` -/

theorem linesFrom_line (cur t more : Text) (h : '\n' ∉ t) :
    linesFrom cur (t ++ '\n' :: more) =
      ((cur ++ t ++ ['\n']) :: (linesFrom [] more).1, (linesFrom [] more).2) := by
  induction t generalizing cur with
  | nil => simp [linesFrom]
  | cons c cs ih =>
    have hc : c ≠ '\n' := fun e => h (by simp [e])
    have hcs : '\n' ∉ cs := fun e => h (List.mem_cons_of_mem _ e)
    simp [linesFrom, hc, ih _ hcs]

theorem ReadStringAll_wire (t : Text) (closed : Bool) (h : '\n' ∉ t) :
    ReadStringAll ((t ++ ['\n']) ++ ['\n']) closed =
      [{ str := t ++ ['\n'], err := false }, { str := ['\n'], err := false }] ++
        (if closed then [{ str := [], err := true }] else []) := by
  have h1 : (t ++ ['\n']) ++ ['\n'] = t ++ '\n' :: ([] ++ '\n' :: []) := by simp
  have h2 := linesFrom_line [] t ([] ++ '\n' :: []) h
  have h3 := linesFrom_line [] [] [] (by simp)
  rw [h3] at h2
  unfold ReadStringAll
  rw [h1, h2]
  simp [linesFrom]

theorem readData_stdout (w : World) (q : Nat) (rw : ReadWriter) (h : w.heap[q]? = some rw) :
    (readData w q).1.stdout = (readDataLoop rw.rd w.stdout).stdout ∧
      (readData w q).2 = (readDataLoop rw.rd w.stdout).status := by
  simp [readData, h]

/-- C4: let `L` be a non-empty text `t` without a newline followed by one
newline, read as an operator line by `writeData` on a node with a well-formed
registry holding a healthy stream `p`.  The bytes the stream delivers for `L`
are `L` and one more newline; and when a read/writer of the receiving node
reads exactly these bytes (the stream staying open or being closed after
them), `readData` adds to the display exactly the green marker, `L`, the reset
marker and the prompt: `L` is shown once and nothing else is. -/
theorem round_trip (w : World) (t : Text) (hwf : w.WF) (p : Nat) (hp : p ∈ w.rws)
    (rw : ReadWriter) (hrw : w.heap[p]? = some rw)
    (hh : rw.healthy ((t ++ ['\n']).length + 1)) (ht : t ≠ []) (hnl : '\n' ∉ t)
    (w2 : World) (q : Nat) (rwq : ReadWriter) (hq : w2.heap[q]? = some rwq) (closed : Bool) :
    (writeData [{ str := t ++ ['\n'], err := false }] w).1.heap[p]? =
        some (send (t ++ ['\n']) rw) ∧
    (send (t ++ ['\n']) rw).w.wr.delivered = rw.w.wr.delivered ++ ((t ++ ['\n']) ++ ['\n']) ∧
    (rwq.rd = ReadStringAll ((t ++ ['\n']) ++ ['\n']) closed →
      (readData w2 q).1.stdout = w2.stdout ++ green ++ (t ++ ['\n']) ++ reset ++ prompt ∧
      (readData w2 q).2 = if closed then Status.returned else Status.blocked) := by
  obtain ⟨h1, _, _, _⟩ := send_healthy (t ++ ['\n']) rw hh
  have hb := broadcast_getElem? { w with stdout := w.stdout ++ prompt } (t ++ ['\n']) p hwf.1
  simp only [hp, hrw, if_true, Option.map_some'] at hb
  refine ⟨?_, ?_, ?_⟩
  · rw [writeData_one]
    exact hb
  · rw [h1]
    simp [List.append_assoc]
  · intro hrd
    obtain ⟨e1, e2⟩ := readData_stdout w2 q rwq hq
    rw [e1, e2, hrd, ReadStringAll_wire t closed hnl]
    have hne : t ++ ['\n'] ≠ [] := by simp
    have hnn : t ++ ['\n'] ≠ ['\n'] := by
      intro e
      have := congrArg List.length e
      simp only [List.length_append, List.length_singleton] at this
      exact ht (List.length_eq_zero.mp (by omega))
    cases closed
    · simp [readDataLoop, hne, hnn]
    · simp [readDataLoop, hne, hnn]

/-- Witness of C4: node B holds a live stream and its operator types
`"hello\n"`; node A shows `hello` once, in green, after the prompt it printed
when the stream arrived. -/
theorem round_trip_witness :
    (readData receiver 0).1.stdout =
      ['>', ' ', '\x1b', '[', '3', '2', 'm', 'h', 'e', 'l', 'l', 'o', '\n', '\x1b', '[', '0', 'm',
        '>', ' '] ∧
    ((writeData [{ str := helloText ++ ['\n'], err := false }]
        (handleStream World.init liveStream)).1.heap[0]? =
        some (send (helloText ++ ['\n']) (NewReadWriter liveStream)) ∧
    (send (helloText ++ ['\n']) (NewReadWriter liveStream)).w.wr.delivered =
      (NewReadWriter liveStream).w.wr.delivered ++ ((helloText ++ ['\n']) ++ ['\n']) ∧
    ((NewReadWriter
        { peer := { bytes := [4] },
          incoming := ReadStringAll ((helloText ++ ['\n']) ++ ['\n']) false,
          delivered := [], credit := none }).rd =
        ReadStringAll ((helloText ++ ['\n']) ++ ['\n']) false →
      (readData receiver 0).1.stdout =
        receiver.stdout ++ green ++ (helloText ++ ['\n']) ++ reset ++ prompt ∧
      (readData receiver 0).2 = if false then Status.returned else Status.blocked)) :=
  ⟨by decide,
    round_trip (handleStream World.init liveStream) helloText (by decide) 0 (by decide)
      (NewReadWriter liveStream) (by decide) (by decide) (by decide) (by decide)
      receiver 0 _ (by decide) false⟩

/-! ## C5: the registry only grows at its end -/

theorem apply_rws (o : Op) (w : World) : w.rws <+: (o.apply w).rws := by
  cases o with
  | handle s => exact ⟨[w.heap.length], rfl⟩
  | read p =>
    show w.rws <+: (readData w p).1.rws
    rw [readData_rws]
  | write line =>
    show w.rws <+: (writeData _ w).1.rws
    rw [writeData_rws]

theorem run_rws (ops : List Op) (w : World) : w.rws <+: (run ops w).rws := by
  induction ops generalizing w with
  | nil => exact ⟨[], List.append_nil _⟩
  | cons o os ih =>
    obtain ⟨t1, h1⟩ := apply_rws o w
    obtain ⟨t2, h2⟩ := ih (o.apply w)
    refine ⟨t1 ++ t2, ?_⟩
    show w.rws ++ (t1 ++ t2) = (run os (o.apply w)).rws
    rw [← h2, ← h1, List.append_assoc]

theorem main_registers (L : AddrLib) (e : Env) (f : Flags) (host1 : Host) (peerID : PeerID)
    (s : NetStream) (hhelp : f.help = false) (hkey : e.keyErr = false)
    (hhost : e.hostErr = false) (hd : f.d ≠ [])
    (hres : addAddrToPeerstore L
      (libp2pNew e.hostID (L.NewMultiaddr (listenAddr f.sp))) f.d =
        Resolved.ok host1 peerID)
    (hdial : e.dial host1 peerID = some s) :
    (main L e f).1.world.rws = World.init.rws ++ [World.init.heap.length] ∧
      (main L e f).1.world.heap = World.init.heap ++ [NewReadWriter s] ∧
      (main L e f).2 = Exit.hang := by
  simp only [main, hhelp, hkey, hhost, hd, if_false, Bool.false_eq_true, hres, hdial,
    and_self]

/-- C5: the registry `rws` is ordered and append-only.  `handleStream` yields
the old registry followed by exactly the pointer to the new read/writer, which
wraps the new stream, and the old objects stay in place; this is so also when
a stream of the same peer is registered already (both stay registered).  The
outbound registration of `main` appends the read/writer of the opened stream
to the registry of the program start.  No operation (`handleStream`,
`readData` to its end, one broadcast iteration of `writeData`) and no sequence
of them removes or reorders an entry: the registry before is a beginning of
the registry after. -/
theorem registry_append_only :
    (∀ (w : World) (s : NetStream),
      (handleStream w s).rws = w.rws ++ [w.heap.length] ∧
      (handleStream w s).heap = w.heap ++ [NewReadWriter s]) ∧
    (∀ (w : World) (s1 s2 : NetStream), s1.peer = s2.peer →
      (handleStream (handleStream w s1) s2).rws = w.rws ++ [w.heap.length, w.heap.length + 1] ∧
      (handleStream (handleStream w s1) s2).heap =
        w.heap ++ [NewReadWriter s1, NewReadWriter s2]) ∧
    (∀ (L : AddrLib) (e : Env) (f : Flags) (host1 : Host) (peerID : PeerID) (s : NetStream),
      f.help = false → e.keyErr = false → e.hostErr = false → f.d ≠ [] →
      addAddrToPeerstore L
        (libp2pNew e.hostID (L.NewMultiaddr (listenAddr f.sp))) f.d =
          Resolved.ok host1 peerID →
      e.dial host1 peerID = some s →
      (main L e f).1.world.rws = World.init.rws ++ [World.init.heap.length] ∧
      (main L e f).1.world.heap = World.init.heap ++ [NewReadWriter s]) ∧
    (∀ (w : World) (p : Nat), (readData w p).1.rws = w.rws) ∧
    (∀ (w : World) (line : Text),
      (writeData [{ str := line, err := false }] w).1.rws = w.rws) ∧
    (∀ (o : Op) (w : World), w.rws <+: (o.apply w).rws) ∧
    (∀ (ops : List Op) (w : World), w.rws <+: (run ops w).rws) := by
  refine ⟨fun w s => ⟨rfl, rfl⟩, ?_, ?_, readData_rws, fun w line => writeData_rws _ w,
    apply_rws, run_rws⟩
  · intro w s1 s2 _
    constructor
    · show (w.rws ++ [w.heap.length]) ++ [(w.heap ++ [NewReadWriter s1]).length] = _
      simp
    · show (w.heap ++ [NewReadWriter s1]) ++ [NewReadWriter s2] = _
      simp
  · intro L e f host1 peerID s h1 h2 h3 h4 h5 h6
    exact ⟨(main_registers L e f host1 peerID s h1 h2 h3 h4 h5 h6).1,
      (main_registers L e f host1 peerID s h1 h2 h3 h4 h5 h6).2.1⟩

/-- Witness of C5: `main` dials the sample locator and registers the stream;
two inbound streams of one peer are then both registered, in order, and a
broadcast and a read leave the registry as it is. -/
theorem registry_append_only_witness :
    ((main refLib sampleEnv sampleFlags).1.world.rws =
        World.init.rws ++ [World.init.heap.length] ∧
      (main refLib sampleEnv sampleFlags).1.world.heap =
        World.init.heap ++ [NewReadWriter liveStream]) ∧
    (run [Op.handle deadStream, Op.handle deadStream, Op.write hiLine, Op.read 0]
        (main refLib sampleEnv sampleFlags).1.world).rws = [0, 1, 2] ∧
    (main refLib sampleEnv sampleFlags).1.world.rws <+:
      (run [Op.handle deadStream, Op.handle deadStream, Op.write hiLine, Op.read 0]
        (main refLib sampleEnv sampleFlags).1.world).rws :=
  ⟨registry_append_only.2.2.1 refLib sampleEnv sampleFlags
      (sampleHost.AddAddr samplePeer sampleAddr TTL.permanent) samplePeer liveStream
      (by decide) (by decide) (by decide) (by decide) (by decide) (by decide),
    by decide,
    registry_append_only.2.2.2.2.2.2 _ _⟩

/-! ## C8: the locator -/

/-- C9, as stated, fails: with the locator `garbage`, which is not an address,
`main` ends with the fatal error, and at that point the host has been created
and listens on `/ip4/0.0.0.0/tcp/4002`. -/
theorem resolver_error_before_network_state_counterexample :
    (main refLib sampleEnv garbageFlags).2 = Exit.fatal ∧
    refLib.NewMultiaddr garbageFlags.d = none ∧
    ¬ ((main refLib sampleEnv garbageFlags).1.host = none) ∧
    ((main refLib sampleEnv garbageFlags).1.host.map (fun h => h.listen)) =
      some [[(4, ['0', '.', '0', '.', '0', '.', '0']), (6, ['4', '0', '0', '2'])]] := by
  decide

/-- C9, amended: when the flags give a locator, key generation succeeds, the
listen address `/ip4/0.0.0.0/tcp/<port>` parses into `a`, host creation
succeeds, and the locator is malformed, or has no identity segment, or has an
identity segment that cannot be decoded, `main` ends with the fatal error of
`log.Fatalln`.  At that point the host has been created and is listening on
`a`, but nothing has been added to its peerstore, no stream has been opened,
no stream handler is set, and no stream is registered or wrapped. -/
theorem resolver_error_fatal (L : AddrLib) (e : Env) (f : Flags) (a : Multiaddr)
    (hhelp : f.help = false) (hkey : e.keyErr = false) (hhost : e.hostErr = false)
    (hlisten : L.NewMultiaddr (listenAddr f.sp) = some a)
    (hd : f.d ≠ [])
    (hbad : L.NewMultiaddr f.d = none ∨
      (∃ m, L.NewMultiaddr f.d = some m ∧ L.ValueForProtocol m P_IPFS = none) ∨
      (∃ m pid, L.NewMultiaddr f.d = some m ∧ L.ValueForProtocol m P_IPFS = some pid ∧
        L.IDB58Decode pid = none)) :
    (main L e f).2 = Exit.fatal ∧
      (main L e f).1.world = World.init ∧
      (main L e f).1.world.rws = [] ∧ (main L e f).1.world.heap = [] ∧
      ∃ host, (main L e f).1.host = some host ∧ host.id = e.hostID ∧ host.listen = [a] ∧
        host.listen ≠ [] ∧ host.peerstore = [] ∧ host.opened = [] ∧ host.handlers = [] := by
  have hres : addAddrToPeerstore L (libp2pNew e.hostID (L.NewMultiaddr (listenAddr f.sp))) f.d =
      Resolved.fatal := by
    unfold addAddrToPeerstore
    rcases hbad with h | ⟨m, h1, h2⟩ | ⟨m, pid, h1, h2, h3⟩
    · rw [h]
    · rw [h1]
      simp only [h2]
    · rw [h1]
      simp only [h2, h3]
  have hmain : main L e f =
      ({ world := World.init,
         host := some (libp2pNew e.hostID (L.NewMultiaddr (listenAddr f.sp))) }, Exit.fatal) := by
    simp only [main, hhelp, hkey, hhost, hd, if_false, Bool.false_eq_true, hres]
  rw [hmain, hlisten]
  exact ⟨rfl, rfl, rfl, rfl, libp2pNew e.hostID (some a), rfl, rfl, rfl,
    List.cons_ne_nil _ _, rfl, rfl, rfl⟩

/-- Witness of C9 amended: the locator `garbage` with the port 4002. -/
theorem resolver_error_fatal_witness :
    (main refLib sampleEnv garbageFlags).2 = Exit.fatal ∧
      (main refLib sampleEnv garbageFlags).1.world = World.init ∧
      (main refLib sampleEnv garbageFlags).1.world.rws = [] ∧
      (main refLib sampleEnv garbageFlags).1.world.heap = [] ∧
      ∃ host, (main refLib sampleEnv garbageFlags).1.host = some host ∧
        host.id = sampleEnv.hostID ∧ host.listen = [sampleListen] ∧
        host.listen ≠ [] ∧ host.peerstore = [] ∧ host.opened = [] ∧ host.handlers = [] :=
  resolver_error_fatal refLib sampleEnv garbageFlags sampleListen (by decide) (by decide)
    (by decide) (by decide) (by decide) (Or.inl (by decide))

end Broadcast
